import Mathlib

/-!
Shallow embedding of the TFL (Transport for London) API client
(`src/unnamed/part_007`, class `TFLApiClient`) and of the status snapshot
cache read path (`src/app/api/status/route.ts`, function `GET`).

Times are epoch milliseconds, modelled as `Nat` (`Date.now()` is
non-negative; all stored timestamps are clamped to be non-negative by the
source via `Math.max(0, _)`).  JavaScript `Map` objects are modelled as
association lists with insertion-order `set` semantics, and string
operations (`toLowerCase`, `trim`, `includes`, `replace`) are modelled
directly on the character data of `String`.
-/

namespace TFL

/-- `s.toLowerCase()` on a JS string. -/
def lowerStr (s : String) : String := ⟨s.data.map Char.toLower⟩

/-- `s.trim()` on a JS string: strip leading and trailing whitespace. -/
def trimStr (s : String) : String :=
  ⟨(((s.data.dropWhile Char.isWhitespace).reverse.dropWhile Char.isWhitespace).reverse)⟩

/-- `haystack.includes(needle)` on JS strings: substring containment. -/
def containsSub (s pat : String) : Bool :=
  (List.range (s.data.length + 1)).any (fun i => pat.data.isPrefixOf (s.data.drop i))

/-- `s.includes(c)` for a single-character needle. -/
def containsChar (s : String) (c : Char) : Bool := s.data.contains c

/-- `s.replace(/c/g, '')`: remove every occurrence of the character `c`. -/
def stripChar (s : String) (c : Char) : String := ⟨s.data.filter (fun d => d ≠ c)⟩

/-- `s.replace(/\s+/g, '')`: remove every whitespace character. -/
def stripWhitespace (s : String) : String := ⟨s.data.filter (fun d => !d.isWhitespace)⟩

/-- `map.get(k)` on a JS `Map` modelled as an association list. -/
def mapLookup : List (String × Nat) → String → Option Nat
  | [], _ => none
  | (k', v) :: rest, k => if k' = k then some v else mapLookup rest k

/-- `map.get(k) || d` (the source uses `|| 0`). -/
def mapGetD (m : List (String × Nat)) (k : String) (d : Nat) : Nat :=
  (mapLookup m k).getD d

/-- `map.set(k, v)` on a JS `Map`: replace in place if the key is present,
otherwise append (JS `Map` keeps insertion order). -/
def mapSet : List (String × Nat) → String → Nat → List (String × Nat)
  | [], k, v => [(k, v)]
  | (k', v') :: rest, k, v =>
      if k' = k then (k, v) :: rest else (k', v') :: mapSet rest k v

/-- The mutable fields of `TFLApiClient` used by the dispatch machinery. -/
structure ClientState where
  apiKeys : List String
  rateLimitCooldowns : List (String × Nat)
  roundRobinIndex : Nat
deriving Repr, DecidableEq

/-- `TflClientError`: an `Error` with the optional extra fields the client
attaches.  The `message` is always a string in the model (the source reads
`(error as Error).message` and treats a non-string as no match). -/
structure DispatchError where
  message : String
  status : Option Nat := none
  isRateLimit : Bool := false
  retryAfterMs : Option Nat := none
deriving Repr, DecidableEq

def phraseRateLimit : String := "rate limit"
def phraseTooMany : String := "too many requests"
def phraseExceededQuota : String := "exceeded your quota"
def phraseQuotaExceeded : String := "quota exceeded"
def phraseOverRateLimit : String := "over rate limit"

/-- The five phrases `isRateLimitError` / `isRateLimitResponse` look for. -/
def rateLimitPhrases : List String :=
  [phraseRateLimit, phraseTooMany, phraseExceededQuota, phraseQuotaExceeded, phraseOverRateLimit]

/-- `TFLApiClient.isRateLimitError` (src/unnamed/part_007 lines 166-194). -/
def isRateLimitError (e : DispatchError) : Bool :=
  if e.isRateLimit then true
  else if e.status = some 429 then true
  else
    let normalized := lowerStr e.message
    containsSub normalized phraseRateLimit ||
    containsSub normalized phraseTooMany ||
    containsSub normalized phraseExceededQuota ||
    containsSub normalized phraseQuotaExceeded ||
    containsSub normalized phraseOverRateLimit

/-- `TFLApiClient.isRateLimitResponse` (src/unnamed/part_007 lines 196-213).
The `if m = ""` branch models the JS falsy check `if (!message)`. -/
def isRateLimitResponse (status : Option Nat) (message : Option String) : Bool :=
  if status = some 429 then true
  else
    match message with
    | none => false
    | some m =>
      if m = "" then false
      else
        let normalized := lowerStr m
        containsSub normalized phraseRateLimit ||
        containsSub normalized phraseTooMany ||
        containsSub normalized phraseExceededQuota ||
        containsSub normalized phraseQuotaExceeded ||
        containsSub normalized phraseOverRateLimit

/-- A `Retry-After` header value after the two parse attempts the source
makes: `Number(raw)` (integer seconds, possibly negative), else
`Date.parse(raw)` (an epoch-ms date), else unparseable. -/
inductive RetryAfterRaw where
  | numeric (seconds : Int)
  | httpDate (dateMs : Nat)
  | unparseable
deriving Repr, DecidableEq

def tflErrorPrependix : String := "TFL API error: "

/-- `TFLApiClient.buildError` (src/unnamed/part_007 lines 234-283), after the
response body has been read: `messageFromBody` is the `message` field of the
JSON body (or the raw text), `retryAfter` the parsed `Retry-After` header.
`Math.max(0, dateMs - Date.now())` is Nat subtraction; `Math.max(0, seconds)`
is `Int.toNat` of the max with 0.  The `message || fallback` uses the JS
falsy check on the empty string. -/
def buildError (status : Nat) (messageFromBody : Option String)
    (retryAfter : Option RetryAfterRaw) (now : Nat) : DispatchError :=
  let retryAfterMs : Option Nat :=
    match retryAfter with
    | some (.numeric s) => some ((max 0 s).toNat * 1000)
    | some (.httpDate d) => some (d - now)
    | some .unparseable => none
    | none => none
  let errorMessage :=
    match messageFromBody with
    | some m => if m = "" then tflErrorPrependix ++ toString status else m
    | none => tflErrorPrependix ++ toString status
  { message := errorMessage
    status := some status
    isRateLimit := isRateLimitResponse (some status) messageFromBody
    retryAfterMs := retryAfterMs }

/-- `TFLApiClient.getApiKeysInPriorityOrder` (src/unnamed/part_007 lines
137-160).  `none` is the "no credential" sentinel (`undefined` in the
source). -/
def getApiKeysInPriorityOrder (s : ClientState) (now : Nat) : List (Option String) :=
  let usableKeys : List String :=
    if 0 < s.apiKeys.length then
      (List.range s.apiKeys.length).filterMap (fun i =>
        let idx := (s.roundRobinIndex + i) % s.apiKeys.length
        let key := s.apiKeys.getD idx ""
        if mapGetD s.rateLimitCooldowns key 0 ≤ now then some key else none)
    else []
  if usableKeys.length = 0 then [none]
  else usableKeys.map some ++ [none]

/-- `TFLApiClient.shouldRetryWithNextKey` (src/unnamed/part_007 lines
162-164). -/
def shouldRetryWithNextKey (e : DispatchError) (attemptIndex totalKeys : Nat) : Bool :=
  decide (attemptIndex < totalKeys - 1) && isRateLimitError e

/-- The cooldown duration picked in `fetchApi`'s catch block:
`typeof retryAfterMs === 'number' && retryAfterMs > 0 ? retryAfterMs : 60_000`. -/
def cooldownMsOf (retryAfterMs : Option Nat) : Nat :=
  match retryAfterMs with
  | some v => if 0 < v then v else 60000
  | none => 60000

/-- The observable result of one `fetchApi` call.  `ok` additionally records
which candidate credential served the successful attempt; `genericFailure`
models the trailing `throw new Error('TFL API request failed')`. -/
inductive FetchOutcome (α : Type) where
  | ok (value : α) (usedKey : Option String)
  | errored (e : DispatchError)
  | genericFailure
deriving Repr, DecidableEq

/-- The candidate loop of `TFLApiClient.fetchApi` (src/unnamed/part_007 lines
93-135).  `resp` gives the outcome of one network attempt with a given
candidate credential; the returned list is the trace of candidates actually
attempted, in order. -/
def fetchLoop (resp : Option String → Except DispatchError α) (now : Nat) (totalKeys : Nat) :
    List (Option String) → Nat → ClientState → Option DispatchError →
    FetchOutcome α × ClientState × List (Option String)
  | [], _, s, lastError =>
      match lastError with
      | some e => (.errored e, s, [])
      | none => (.genericFailure, s, [])
  | apiKey :: restKeys, index, s, _ =>
      match resp apiKey with
      | .ok v =>
          let s' := match apiKey with
            | some _ =>
                { s with roundRobinIndex := (s.roundRobinIndex + 1) % max s.apiKeys.length 1 }
            | none => s
          (.ok v apiKey, s', [apiKey])
      | .error e =>
          let s' := match apiKey with
            | some key =>
                if isRateLimitError e then
                  { s with rateLimitCooldowns :=
                      mapSet s.rateLimitCooldowns key (now + cooldownMsOf e.retryAfterMs) }
                else s
            | none => s
          if shouldRetryWithNextKey e index totalKeys then
            let r := fetchLoop resp now totalKeys restKeys (index + 1) s' (some e)
            (r.1, r.2.1, apiKey :: r.2.2)
          else
            (.errored e, s', [apiKey])

/-- `TFLApiClient.fetchApi` (src/unnamed/part_007 lines 93-135). -/
def fetchApi (resp : Option String → Except DispatchError α) (now : Nat) (s : ClientState) :
    FetchOutcome α × ClientState × List (Option String) :=
  let apiKeys := getApiKeysInPriorityOrder s now
  fetchLoop resp now apiKeys.length apiKeys 0 s none

/-- The pool viewed from the rotation cursor with wrap-around (the
specification's description of the candidate walk). -/
def rotatedPool (s : ClientState) : List String :=
  s.apiKeys.rotate s.roundRobinIndex

/-- The candidate list exactly as the specification words it: walk the pool
once starting at the cursor, exclude credentials whose cooldown timestamp is
still in the future relative to `now`, then append the sentinel; only the
sentinel when nothing is eligible. -/
def candidatesSpec (s : ClientState) (now : Nat) : List (Option String) :=
  let eligible :=
    (rotatedPool s).filter (fun k => !decide (now < mapGetD s.rateLimitCooldowns k 0))
  if eligible = [] then [none] else eligible.map some ++ [none]

/-- One entry of `LineStatus.lineStatuses` (`@/types/tfl`); only the
severity is inspected by the core. -/
structure StatusEntry where
  statusSeverity : Nat
deriving Repr, DecidableEq

/-- A line-status record (`@/types/tfl`), restricted to the fields the core
reads. -/
structure LineStatus where
  id : String
  name : String
  modeName : String
  lineStatuses : List StatusEntry
deriving Repr, DecidableEq

/-- `TFLApiClient.isGoodService` (src/unnamed/part_007 lines 501-504). -/
def isGoodService (lineStatus : LineStatus) : Bool :=
  lineStatus.lineStatuses.all (fun status => status.statusSeverity == 10)

/-- `Array.from(new Set(...))`: first-occurrence de-duplication, insertion
order preserved. -/
def dedupFirstAux (seen : List String) : List String → List String
  | [] => []
  | x :: xs =>
      if x ∈ seen then dedupFirstAux seen xs
      else x :: dedupFirstAux (x :: seen) xs

def dedupFirst (l : List String) : List String := dedupFirstAux [] l

/-- An error thrown by a client method, as observed by callers that only
look at `error.message` (`getLineStatus`, `getMultipleArrivals`). -/
structure ThrownError where
  message : String
deriving Repr, DecidableEq

/-- The id list `getMultipleArrivals` actually works on: keep non-blank ids
(`typeof id === 'string' && id.trim().length > 0`), then de-duplicate. -/
def uniqueIds (stopPointIds : List String) : List String :=
  dedupFirst (stopPointIds.filter (fun id => trimStr id ≠ ""))

/-- `TFLApiClient.getMultipleArrivals` (src/unnamed/part_007 lines 349-372).
`fetch` is the single-stop arrival call `getArrivals`; a per-id failure in
the multi-id branch is caught and mapped to `[]`. -/
def getMultipleArrivals (fetch : String → Except ThrownError (List α))
    (stopPointIds : List String) : Except ThrownError (List α) :=
  let ids := uniqueIds stopPointIds
  if ids.length = 0 then .ok []
  else if ids.length = 1 then fetch (ids.getD 0 "")
  else
    .ok ((ids.map (fun id =>
      match fetch id with
      | .ok arrivals => arrivals
      | .error _ => [])).flatten)

/-- The claim's reading of `getMultipleArrivals`: de-duplicate only (no
blank-id filtering), delegate when exactly one distinct id remains, else the
failure-tolerant per-id batch. -/
def getMultipleArrivalsClaim (fetch : String → Except ThrownError (List α))
    (stopPointIds : List String) : Except ThrownError (List α) :=
  let ids := dedupFirst stopPointIds
  if ids.length = 0 then .ok []
  else if ids.length = 1 then fetch (ids.getD 0 "")
  else
    .ok ((ids.map (fun id =>
      match fetch id with
      | .ok arrivals => arrivals
      | .error _ => [])).flatten)

def modeRiverBus : String := "river-bus"
def modeRiverbusAlias : String := "riverbus"
def modeCableCar : String := "cable-car"
def modeCablecarAlias : String := "cablecar"

/-- `DEFAULT_STATUS_MODES` (src/unnamed/part_007 line 11). -/
def DEFAULT_STATUS_MODES : List String :=
  ["tube", "bus", "dlr", "overground", "tram", modeRiverBus, modeCableCar]

def hyphen : Char := '-'

def spaceChar : Char := ' '

/-- `Set.add`: append only when absent (JS `Set` insertion order). -/
def setAdd (l : List String) (x : String) : List String :=
  if x ∈ l then l else l ++ [x]

/-- `buildModeVariants` (src/unnamed/part_007 lines 13-35). -/
def buildModeVariants (mode : String) : List String :=
  let normalized := lowerStr (trimStr mode)
  let variants := [normalized]
  let variants :=
    if containsChar normalized hyphen then setAdd variants (stripChar normalized hyphen)
    else variants
  let variants :=
    if containsChar normalized spaceChar then setAdd variants (stripWhitespace normalized)
    else variants
  let variants := if normalized = modeRiverBus then setAdd variants modeRiverbusAlias else variants
  let variants := if normalized = modeCableCar then setAdd variants modeCablecarAlias else variants
  variants

def patternPhrase : String := "string did not match the expected pattern"

def statusEndpointOf (modesPart : String) : String :=
  "/Line/Mode/" ++ modesPart ++ "/Status"

/-- `[...].join(',')`. -/
def joinComma : List String → String
  | [] => ""
  | [x] => x
  | x :: y :: xs => x ++ "," ++ joinComma (y :: xs)

/-- Whether an error message signals the upstream malformed-pattern
complaint (`errorMessage.includes('string did not match the expected pattern')`,
on the lower-cased message). -/
def isPatternError (e : ThrownError) : Bool :=
  containsSub (lowerStr e.message) patternPhrase

/-- The inner variant loop of `getLineStatus`'s fallback: first success
wins; a variant failing with a NON-pattern error breaks out of the loop
without success (the `break` in the catch). -/
def tryVariants (f : String → Except ThrownError (List LineStatus)) :
    List String → Option (List LineStatus)
  | [] => none
  | v :: rest =>
      match f (statusEndpointOf v) with
      | .ok data => some data
      | .error variantError =>
          if isPatternError variantError then tryVariants f rest
          else none

/-- The per-mode fallback loop: aggregate the successful modes' data and
collect the modes that failed. -/
def fallbackAggregate (f : String → Except ThrownError (List LineStatus))
    (modes : List String) : List LineStatus × List String :=
  modes.foldl (fun acc mode =>
    match tryVariants f (buildModeVariants mode) with
    | some data => (acc.1 ++ data, acc.2)
    | none => (acc.1, acc.2 ++ [mode])) ([], [])

def requestedModesOf (modes : Option (List String)) : List String :=
  (match modes with
   | some ms => if 0 < ms.length then ms else DEFAULT_STATUS_MODES
   | none => DEFAULT_STATUS_MODES).map lowerStr

/-- `TFLApiClient.getLineStatus` (src/unnamed/part_007 lines 389-442),
with `fetchApi` abstracted as the endpoint-indexed oracle `f`. -/
def getLineStatus (f : String → Except ThrownError (List LineStatus))
    (modes : Option (List String)) : Except ThrownError (List LineStatus) :=
  let requestedModes := requestedModesOf modes
  let bulkEndpoint := statusEndpointOf (joinComma requestedModes)
  match f bulkEndpoint with
  | .ok data => .ok data
  | .error e =>
      if isPatternError e then
        let aggregated := (fallbackAggregate f requestedModes).1
        if 0 < aggregated.length then .ok aggregated else .error e
      else .error e

/-- The claim's reading of the variant loop: try every variant in order and
accept the first success, never aborting early on a non-pattern error. -/
def tryVariantsClaim (f : String → Except ThrownError (List LineStatus)) :
    List String → Option (List LineStatus)
  | [] => none
  | v :: rest =>
      match f (statusEndpointOf v) with
      | .ok data => some data
      | .error _ => tryVariantsClaim f rest

/-- Fallback aggregation under the claim's reading, also counting how many
modes succeeded. -/
def fallbackAggregateClaim (f : String → Except ThrownError (List LineStatus))
    (modes : List String) : List LineStatus × Nat :=
  modes.foldl (fun acc mode =>
    match tryVariantsClaim f (buildModeVariants mode) with
    | some data => (acc.1 ++ data, acc.2 + 1)
    | none => acc) ([], 0)

/-- `getLineStatus` exactly as the claim words it: on a malformed-pattern
bulk failure, try all variants per mode, skip only modes where every variant
fails, and return the aggregated results as long as at least one MODE
succeeded. -/
def getLineStatusClaim (f : String → Except ThrownError (List LineStatus))
    (modes : Option (List String)) : Except ThrownError (List LineStatus) :=
  let requestedModes := requestedModesOf modes
  let bulkEndpoint := statusEndpointOf (joinComma requestedModes)
  match f bulkEndpoint with
  | .ok data => .ok data
  | .error e =>
      if isPatternError e then
        let r := fallbackAggregateClaim f requestedModes
        if 0 < r.2 then .ok r.1 else .error e
      else .error e

/-- A persisted status snapshot row as read back by the route
(`StatusSnapshot` from `src/lib/service-status-snapshots.ts`). -/
structure Snapshot where
  payload : List LineStatus
  validAt : Nat
deriving Repr, DecidableEq

/-- Modelled from the spec: `isSnapshotFresh` lives in
`src/lib/service-status-snapshots.ts`, which is not among the provided
sources.  The spec defines freshness as `now - valid_at <= maxAge`, derived
for an existing snapshot, and an absent snapshot is not fresh. -/
def isSnapshotFresh (snapshot : Option Snapshot) (maxAgeMs now : Nat) : Bool :=
  match snapshot with
  | none => false
  | some snap => decide (now - snap.validAt ≤ maxAgeMs)

/-- The outcomes of the external operations the status route awaits, fixed
up-front: the first snapshot read, the forced refresh, the re-read after a
successful refresh, the direct live fetch, and the best-effort persistence
of the live result. -/
structure CacheEnv where
  read1 : Except Unit (Option Snapshot)
  refreshRes : Except Unit Unit
  read2 : Except Unit (Option Snapshot)
  live : Except Unit (List LineStatus)
  persistRes : Except Unit Unit
deriving Repr

/-- Which strategy produced the returned payload. -/
inductive CacheSource where
  | cacheHit
  | refreshed
  | liveFetch
deriving Repr, DecidableEq

/-- Result of one status read: a payload with its source, or a thrown
error (the route's outer catch turns it into a 500 response). -/
inductive CacheOutcome where
  | payload (lines : List LineStatus) (source : CacheSource)
  | errored
deriving Repr, DecidableEq

def maxSnapshotAgeMs : Nat := 2 * 60 * 1000

/-- The value of the route's `snapshot` variable after the first guarded
read: a failing read is caught and logged, leaving the variable null. -/
def snapshotAfterRead1 (env : CacheEnv) : Option Snapshot :=
  match env.read1 with
  | .ok s => s
  | .error _ => none

/-- The value of the route's `snapshot` variable after the
`try { refresh; snapshot = re-read } catch` block: if the refresh or the
re-read throws, the assignment never runs and the previous value stays. -/
def snapshotAfterRefresh (env : CacheEnv) : Option Snapshot :=
  match env.refreshRes with
  | .error _ => snapshotAfterRead1 env
  | .ok _ =>
      match env.read2 with
      | .error _ => snapshotAfterRead1 env
      | .ok s => s

/-- The cache read path of `GET` in `src/app/api/status/route.ts` (lines
150-190).  The Boolean result records whether the refresh path was entered.
A failing live fetch escapes to the route's outer catch (an error
response); a failing persistence of the live result is swallowed. -/
def statusRead (env : CacheEnv) (now : Nat) : CacheOutcome × Bool :=
  if isSnapshotFresh (snapshotAfterRead1 env) maxSnapshotAgeMs now then
    (.payload (((snapshotAfterRead1 env).getD ⟨[], 0⟩).payload) .cacheHit, false)
  else
    if isSnapshotFresh (snapshotAfterRefresh env) maxSnapshotAgeMs now then
      (.payload (((snapshotAfterRefresh env).getD ⟨[], 0⟩).payload) .refreshed, true)
    else
      match env.live with
      | .ok lines => (.payload lines .liveFetch, true)
      | .error _ => (.errored, true)

/-! ## Helper lemmas -/

theorem filterMap_ite {β α : Type} (L : List β) (f : β → α) (p : α → Prop) [DecidablePred p] :
    L.filterMap (fun i => if p (f i) then some (f i) else none) =
      (L.map f).filter (fun a => decide (p a)) := by
  induction L with
  | nil => rfl
  | cons a t ih =>
      by_cases h : p (f a) <;> simp [List.filterMap_cons, List.filter_cons, h, ih]

theorem range_map_getD {α : Type} (l : List α) (r : Nat) (d : α) (h : 0 < l.length) :
    (List.range l.length).map (fun i => l.getD ((r + i) % l.length) d) = l.rotate r := by
  apply List.ext_getElem
  · simp
  · intro n h1 h2
    simp only [List.getElem_map, List.getElem_range]
    rw [List.getElem_rotate]
    rw [List.getD_eq_getElem l d (Nat.mod_lt _ h)]
    rw [Nat.add_comm r n]

theorem keys_eq (s : ClientState) (now : Nat) :
    getApiKeysInPriorityOrder s now = candidatesSpec s now := by
  have hfilter : ∀ k ∈ s.apiKeys.rotate s.roundRobinIndex,
      (!decide (now < mapGetD s.rateLimitCooldowns k 0)) =
        decide (mapGetD s.rateLimitCooldowns k 0 ≤ now) := by
    intro k _
    rw [← decide_not, decide_eq_decide]
    exact Nat.not_lt
  rcases eq_or_ne s.apiKeys [] with he | he
  · simp [getApiKeysInPriorityOrder, candidatesSpec, rotatedPool, he]
  · have hlen : 0 < s.apiKeys.length := List.length_pos.mpr he
    simp only [getApiKeysInPriorityOrder, candidatesSpec, rotatedPool, if_pos hlen]
    rw [filterMap_ite (List.range s.apiKeys.length)
        (fun i => s.apiKeys.getD ((s.roundRobinIndex + i) % s.apiKeys.length) "")
        (fun k => mapGetD s.rateLimitCooldowns k 0 ≤ now),
      range_map_getD s.apiKeys s.roundRobinIndex "" hlen,
      List.filter_congr hfilter]
    simp [List.length_eq_zero]

theorem mapLookup_mapSet_self (m : List (String × Nat)) (k : String) (v : Nat) :
    mapLookup (mapSet m k v) k = some v := by
  induction m with
  | nil => simp [mapSet, mapLookup]
  | cons p rest ih =>
      by_cases h : p.1 = k
      · simp [mapSet, mapLookup, h]
      · simp [mapSet, mapLookup, h, ih]

theorem mapLookup_mapSet_other (m : List (String × Nat)) (k k' : String) (v : Nat)
    (h : k' ≠ k) : mapLookup (mapSet m k v) k' = mapLookup m k' := by
  induction m with
  | nil => simp [mapSet, mapLookup, Ne.symm h]
  | cons p rest ih =>
      by_cases hp : p.1 = k
      · simp [mapSet, mapLookup, hp, Ne.symm h]
      · by_cases hp' : p.1 = k'
        · simp [mapSet, mapLookup, hp, hp', h]
        · simp [mapSet, mapLookup, hp, hp', h, ih]

theorem candidates_ne_nil (s : ClientState) (now : Nat) :
    getApiKeysInPriorityOrder s now ≠ [] := by
  rw [keys_eq]
  unfold candidatesSpec
  by_cases h : (rotatedPool s).filter
      (fun k => !decide (now < mapGetD s.rateLimitCooldowns k 0)) = []
  · simp [h]
  · simp [h]

theorem mem_candidates_cooldown (s : ClientState) (now : Nat) (k : String)
    (h : (some k) ∈ getApiKeysInPriorityOrder s now) :
    mapGetD s.rateLimitCooldowns k 0 ≤ now := by
  rw [keys_eq] at h
  unfold candidatesSpec at h
  by_cases hf : (rotatedPool s).filter
      (fun k => !decide (now < mapGetD s.rateLimitCooldowns k 0)) = []
  · simp [hf] at h
  · rw [if_neg hf] at h
    rcases List.mem_append.mp h with hmap | hsing
    · obtain ⟨x, hx, hxk⟩ := List.mem_map.mp hmap
      obtain ⟨-, hpx⟩ := List.mem_filter.mp hx
      obtain rfl : x = k := Option.some_injective _ hxk
      simpa [Nat.not_lt] using hpx
    · simp at hsing

theorem candidates_nodup (s : ClientState) (now : Nat) (hnd : s.apiKeys.Nodup) :
    (getApiKeysInPriorityOrder s now).Nodup := by
  rw [keys_eq]
  unfold candidatesSpec
  by_cases hf : (rotatedPool s).filter
      (fun k => !decide (now < mapGetD s.rateLimitCooldowns k 0)) = []
  · simp [hf]
  · simp only [hf, if_neg]
    have hrot : (rotatedPool s).Nodup := by
      unfold rotatedPool
      exact List.nodup_rotate.mpr hnd
    have hfil := hrot.filter (fun k => !decide (now < mapGetD s.rateLimitCooldowns k 0))
    refine List.Nodup.append (hfil.map (fun a b => ?_) ) (by simp) ?_
    · exact fun h => Option.some_injective _ h
    · intro x hx hy
      simp only [List.mem_singleton] at hy
      subst hy
      obtain ⟨a, -, ha⟩ := List.mem_map.mp hx
      exact Option.noConfusion ha

theorem candidates_nocooldown (s : ClientState) (now : Nat)
    (hp : 0 < s.apiKeys.length)
    (h : ∀ x, mapGetD s.rateLimitCooldowns x 0 ≤ now) :
    getApiKeysInPriorityOrder s now =
      (s.apiKeys.rotate s.roundRobinIndex).map some ++ [none] := by
  rw [keys_eq]
  unfold candidatesSpec rotatedPool
  have hfil : (s.apiKeys.rotate s.roundRobinIndex).filter
      (fun k => !decide (now < mapGetD s.rateLimitCooldowns k 0)) =
      s.apiKeys.rotate s.roundRobinIndex := by
    apply List.filter_eq_self.mpr
    intro a _
    simpa [Nat.not_lt] using h a
  have hne : s.apiKeys.rotate s.roundRobinIndex ≠ [] := by
    intro hh
    have hlr := List.length_rotate s.apiKeys s.roundRobinIndex
    rw [hh] at hlr
    simp at hlr
    omega
  simp only [hfil, if_neg hne]

theorem candidates_nocooldown_head (s : ClientState) (now : Nat)
    (hidx : s.roundRobinIndex < s.apiKeys.length)
    (h : ∀ x, mapGetD s.rateLimitCooldowns x 0 ≤ now) :
    (getApiKeysInPriorityOrder s now).headD none =
      some (s.apiKeys.getD s.roundRobinIndex "") := by
  rw [candidates_nocooldown s now (Nat.lt_of_le_of_lt (Nat.zero_le _) hidx) h]
  have hne : s.apiKeys.rotate s.roundRobinIndex ≠ [] := by
    intro hh
    have hlr := List.length_rotate s.apiKeys s.roundRobinIndex
    rw [hh] at hlr
    simp at hlr
    omega
  obtain ⟨a, t, hat⟩ := List.exists_cons_of_ne_nil hne
  have hh := List.head?_rotate (l := s.apiKeys) (n := s.roundRobinIndex) hidx
  rw [hat] at hh
  simp only [List.head?_cons] at hh
  rw [List.getElem?_eq_getElem hidx] at hh
  rw [hat]
  simp only [List.map_cons, List.cons_append, List.headD_cons]
  rw [List.getD_eq_getElem _ _ hidx]
  exact hh

theorem fetchLoop_cursor {α : Type} (resp : Option String → Except DispatchError α)
    (now total : Nat) :
    ∀ (cands : List (Option String)) (idx : Nat) (s : ClientState)
      (le : Option DispatchError),
      (fetchLoop resp now total cands idx s le).2.1.apiKeys = s.apiKeys ∧
      (((fetchLoop resp now total cands idx s le).2.1.roundRobinIndex = s.roundRobinIndex ∧
          ∀ v k, (fetchLoop resp now total cands idx s le).1 ≠ .ok v (some k)) ∨
       ((fetchLoop resp now total cands idx s le).2.1.roundRobinIndex =
          (s.roundRobinIndex + 1) % max s.apiKeys.length 1 ∧
          ∃ v k, (fetchLoop resp now total cands idx s le).1 = .ok v (some k))) := by
  intro cands
  induction cands with
  | nil =>
      intro idx s le
      cases le <;> simp [fetchLoop]
  | cons c rest ih =>
      intro idx s le
      cases hr : resp c with
      | ok v =>
          cases c with
          | none => simp [fetchLoop, hr]
          | some key =>
              refine ⟨by simp [fetchLoop, hr], Or.inr ⟨by simp [fetchLoop, hr], v, key, by simp [fetchLoop, hr]⟩⟩
      | error e =>
          by_cases hsr : shouldRetryWithNextKey e idx total = true
          · cases c with
            | none =>
                have := ih (idx + 1) s (some e)
                simpa [fetchLoop, hr, hsr] using this
            | some key =>
                by_cases hrl : isRateLimitError e = true
                · have := ih (idx + 1)
                    { s with rateLimitCooldowns :=
                        mapSet s.rateLimitCooldowns key (now + cooldownMsOf e.retryAfterMs) }
                    (some e)
                  simpa [fetchLoop, hr, hsr, hrl] using this
                · have := ih (idx + 1) s (some e)
                  simpa [fetchLoop, hr, hsr, hrl] using this
          · cases c with
            | none => simp [fetchLoop, hr, hsr]
            | some key =>
                by_cases hrl : isRateLimitError e = true <;>
                  simp [fetchLoop, hr, hsr, hrl]

theorem fetchLoop_total {α : Type} (resp : Option String → Except DispatchError α)
    (now total : Nat) :
    ∀ (cands : List (Option String)) (idx : Nat) (s : ClientState)
      (le : Option DispatchError), cands ≠ [] →
      (∃ v k, k ∈ cands ∧ resp k = .ok v ∧
        (fetchLoop resp now total cands idx s le).1 = .ok v k) ∨
      (∃ k e, k ∈ cands ∧ resp k = .error e ∧
        (fetchLoop resp now total cands idx s le).1 = .errored e) := by
  intro cands
  induction cands with
  | nil => intro _ _ _ h; exact absurd rfl h
  | cons c rest ih =>
      intro idx s le _
      cases hr : resp c with
      | ok v => exact Or.inl ⟨v, c, List.mem_cons_self c rest, hr, by simp [fetchLoop, hr]⟩
      | error e =>
          by_cases hsr : shouldRetryWithNextKey e idx total = true
          · cases rest with
            | nil =>
                refine Or.inr ⟨c, e, List.mem_cons_self c [], hr, ?_⟩
                simp [fetchLoop, hr, hsr]
            | cons c2 rest2 =>
                have step : ∀ s' : ClientState,
                    (fetchLoop resp now total (c :: c2 :: rest2) idx s le).1 =
                      (fetchLoop resp now total (c2 :: rest2) (idx + 1) s' (some e)).1 →
                    (∃ v k, k ∈ c :: c2 :: rest2 ∧ resp k = .ok v ∧
                      (fetchLoop resp now total (c :: c2 :: rest2) idx s le).1 = .ok v k) ∨
                    (∃ k e', k ∈ c :: c2 :: rest2 ∧ resp k = .error e' ∧
                      (fetchLoop resp now total (c :: c2 :: rest2) idx s le).1 = .errored e') := by
                  intro s' heq
                  rcases ih (idx + 1) s' (some e) (by simp) with
                    ⟨v, k, hk, hrk, hout⟩ | ⟨k, e', hk, hrk, hout⟩
                  · exact Or.inl ⟨v, k, List.mem_cons_of_mem c hk, hrk, heq.trans hout⟩
                  · exact Or.inr ⟨k, e', List.mem_cons_of_mem c hk, hrk, heq.trans hout⟩
                cases c with
                | none => exact step s (by simp [fetchLoop, hr, hsr])
                | some key =>
                    by_cases hrl : isRateLimitError e = true
                    · refine step ?_ ?_
                      · exact { s with rateLimitCooldowns := mapSet s.rateLimitCooldowns key (now + cooldownMsOf e.retryAfterMs) }
                      · simp [fetchLoop, hr, hsr, hrl]
                    · exact step s (by simp [fetchLoop, hr, hsr, hrl])
          · refine Or.inr ⟨c, e, List.mem_cons_self c rest, hr, ?_⟩
            simp [fetchLoop, hr, hsr]

theorem fetchLoop_trace_rl {α : Type} (resp : Option String → Except DispatchError α)
    (now total : Nat) :
    ∀ (cands : List (Option String)) (idx : Nat) (s : ClientState)
      (le : Option DispatchError) (i : Nat),
      i + 1 < (fetchLoop resp now total cands idx s le).2.2.length →
      ∃ e, resp ((fetchLoop resp now total cands idx s le).2.2.getD i none) = .error e ∧
        isRateLimitError e = true := by
  intro cands
  induction cands with
  | nil =>
      intro idx s le i h
      cases le <;> simp [fetchLoop] at h
  | cons c rest ih =>
      intro idx s le i h
      cases hr : resp c with
      | ok v => simp [fetchLoop, hr] at h
      | error e =>
          by_cases hsr : shouldRetryWithNextKey e idx total = true
          · have hrl : isRateLimitError e = true :=
              (Bool.and_eq_true _ _ |>.mp hsr).2
            cases c with
            | none =>
                simp only [fetchLoop, hr, hsr, if_true] at h ⊢
                cases i with
                | zero => exact ⟨e, by simpa using hr, hrl⟩
                | succ j =>
                    have := ih (idx + 1) s (some e) j (by simpa using h)
                    simpa using this
            | some key =>
                by_cases hrlb : isRateLimitError e = true
                · simp only [fetchLoop, hr, hsr, hrlb, if_true] at h ⊢
                  cases i with
                  | zero => exact ⟨e, by simpa using hr, hrl⟩
                  | succ j =>
                      have := ih (idx + 1) { s with rateLimitCooldowns := mapSet s.rateLimitCooldowns key (now + cooldownMsOf e.retryAfterMs) } (some e) j (by simpa using h)
                      simpa using this
                · exact absurd hrl hrlb
          · cases c with
            | none => simp [fetchLoop, hr, hsr] at h
            | some key =>
                by_cases hrlb : isRateLimitError e = true <;>
                  simp [fetchLoop, hr, hsr, hrlb] at h

theorem fetchLoop_trace_take {α : Type} (resp : Option String → Except DispatchError α)
    (now total : Nat) :
    ∀ (cands : List (Option String)) (idx : Nat) (s : ClientState)
      (le : Option DispatchError),
      ∃ q, (fetchLoop resp now total cands idx s le).2.2 ++ q = cands := by
  intro cands
  induction cands with
  | nil =>
      intro idx s le
      cases le <;> exact ⟨[], by simp [fetchLoop]⟩
  | cons c rest ih =>
      intro idx s le
      cases hr : resp c with
      | ok v => exact ⟨rest, by simp [fetchLoop, hr]⟩
      | error e =>
          by_cases hsr : shouldRetryWithNextKey e idx total = true
          · cases c with
            | none =>
                obtain ⟨q, hq⟩ := ih (idx + 1) s (some e)
                exact ⟨q, by simp [fetchLoop, hr, hsr, hq]⟩
            | some key =>
                by_cases hrl : isRateLimitError e = true
                · obtain ⟨q, hq⟩ := ih (idx + 1) { s with rateLimitCooldowns := mapSet s.rateLimitCooldowns key (now + cooldownMsOf e.retryAfterMs) } (some e)
                  exact ⟨q, by simp [fetchLoop, hr, hsr, hrl, hq]⟩
                · obtain ⟨q, hq⟩ := ih (idx + 1) s (some e)
                  exact ⟨q, by simp [fetchLoop, hr, hsr, hrl, hq]⟩
          · cases c with
            | none => exact ⟨rest, by simp [fetchLoop, hr, hsr]⟩
            | some key =>
                by_cases hrl : isRateLimitError e = true
                · exact ⟨rest, by simp [fetchLoop, hr, hsr, hrl]⟩
                · exact ⟨rest, by simp [fetchLoop, hr, hsr, hrl]⟩

theorem fetchLoop_cooldown_untouched {α : Type} (resp : Option String → Except DispatchError α)
    (now total : Nat) (k : String) :
    ∀ (cands : List (Option String)) (idx : Nat) (s : ClientState)
      (le : Option DispatchError), (some k) ∉ cands →
      mapLookup (fetchLoop resp now total cands idx s le).2.1.rateLimitCooldowns k =
        mapLookup s.rateLimitCooldowns k := by
  intro cands
  induction cands with
  | nil =>
      intro idx s le _
      cases le <;> simp [fetchLoop]
  | cons c rest ih =>
      intro idx s le hmem
      have hc : c ≠ some k := fun h => hmem (h ▸ List.mem_cons_self c rest)
      have hrest : (some k) ∉ rest := fun h => hmem (List.mem_cons_of_mem c h)
      cases hr : resp c with
      | ok v =>
          cases c with
          | none => simp [fetchLoop, hr]
          | some key => simp [fetchLoop, hr]
      | error e =>
          by_cases hsr : shouldRetryWithNextKey e idx total = true
          · cases c with
            | none => simpa [fetchLoop, hr, hsr] using ih (idx + 1) s (some e) hrest
            | some key =>
                have hkey : k ≠ key := fun h => hc (by rw [h])
                by_cases hrl : isRateLimitError e = true
                · have := ih (idx + 1) { s with rateLimitCooldowns := mapSet s.rateLimitCooldowns key (now + cooldownMsOf e.retryAfterMs) } (some e) hrest
                  simp only [fetchLoop, hr, hsr, hrl, if_true] at this ⊢
                  simp only [this]
                  exact mapLookup_mapSet_other _ _ _ _ hkey
                · simpa [fetchLoop, hr, hsr, hrl] using ih (idx + 1) s (some e) hrest
          · cases c with
            | none => simp [fetchLoop, hr, hsr]
            | some key =>
                have hkey : k ≠ key := fun h => hc (by rw [h])
                by_cases hrl : isRateLimitError e = true
                · simp only [fetchLoop, hr, hsr, hrl, if_true]
                  simp [mapLookup_mapSet_other _ _ _ _ hkey]
                · simp [fetchLoop, hr, hsr, hrl]

theorem fetchLoop_head_rl {α : Type} (resp : Option String → Except DispatchError α)
    (now total : Nat) (k : String) (rest : List (Option String)) (idx : Nat)
    (s : ClientState) (le : Option DispatchError) (e : DispatchError)
    (herr : resp (some k) = .error e) (hrl : isRateLimitError e = true)
    (hrest : (some k) ∉ rest) :
    mapLookup (fetchLoop resp now total ((some k) :: rest) idx s le).2.1.rateLimitCooldowns k =
      some (now + cooldownMsOf e.retryAfterMs) := by
  by_cases hsr : shouldRetryWithNextKey e idx total = true
  · have := fetchLoop_cooldown_untouched resp now total k rest (idx + 1)
      { s with rateLimitCooldowns := mapSet s.rateLimitCooldowns k (now + cooldownMsOf e.retryAfterMs) }
      (some e) hrest
    simp only [fetchLoop, herr, hrl, hsr, if_true]
    simpa [mapLookup_mapSet_self] using this
  · simp [fetchLoop, herr, hrl, hsr, mapLookup_mapSet_self]


theorem fetchLoop_mem_rl {α : Type} (resp : Option String → Except DispatchError α)
    (now total : Nat) (k : String) (e : DispatchError)
    (herr : resp (some k) = .error e) (hrl : isRateLimitError e = true) :
    ∀ (cands : List (Option String)) (idx : Nat) (s : ClientState)
      (le : Option DispatchError), cands.Nodup →
      (some k) ∈ (fetchLoop resp now total cands idx s le).2.2 →
      mapLookup (fetchLoop resp now total cands idx s le).2.1.rateLimitCooldowns k =
        some (now + cooldownMsOf e.retryAfterMs) := by
  intro cands
  induction cands with
  | nil =>
      intro idx s le _ hmem
      cases le <;> simp [fetchLoop] at hmem
  | cons c rest ih =>
      intro idx s le hnd hmem
      by_cases hck : c = some k
      · subst hck
        exact fetchLoop_head_rl resp now total k rest idx s le e herr hrl
          ((List.nodup_cons.mp hnd).1)
      · cases hr : resp c with
        | ok v =>
            simp only [fetchLoop, hr] at hmem
            rcases List.mem_cons.mp hmem with h1 | h1
            · exact absurd h1.symm hck
            · simp at h1
        | error e' =>
            by_cases hsr : shouldRetryWithNextKey e' idx total = true
            · cases c with
              | none =>
                  have hmem' : (some k) ∈
                      (fetchLoop resp now total rest (idx + 1) s (some e')).2.2 := by
                    simp only [fetchLoop, hr, hsr, if_true] at hmem
                    rcases List.mem_cons.mp hmem with h1 | h1
                    · exact absurd h1 (by simp)
                    · exact h1
                  have := ih (idx + 1) s (some e') (List.nodup_cons.mp hnd).2 hmem'
                  simpa [fetchLoop, hr, hsr] using this
              | some key =>
                  by_cases hrlb : isRateLimitError e' = true
                  · have hmem' : (some k) ∈
                        (fetchLoop resp now total rest (idx + 1) { s with rateLimitCooldowns := mapSet s.rateLimitCooldowns key (now + cooldownMsOf e'.retryAfterMs) } (some e')).2.2 := by
                      simp only [fetchLoop, hr, hsr, hrlb, if_true] at hmem
                      rcases List.mem_cons.mp hmem with h1 | h1
                      · exact absurd h1.symm hck
                      · exact h1
                    have := ih (idx + 1)
                      { s with rateLimitCooldowns := mapSet s.rateLimitCooldowns key (now + cooldownMsOf e'.retryAfterMs) }
                      (some e') (List.nodup_cons.mp hnd).2 hmem'
                    simpa [fetchLoop, hr, hsr, hrlb] using this
                  · have hmem' : (some k) ∈
                        (fetchLoop resp now total rest (idx + 1) s (some e')).2.2 := by
                      simp only [fetchLoop, hr, hsr, hrlb, if_true] at hmem
                      rcases List.mem_cons.mp hmem with h1 | h1
                      · exact absurd h1.symm hck
                      · exact h1
                    have := ih (idx + 1) s (some e') (List.nodup_cons.mp hnd).2 hmem'
                    simpa [fetchLoop, hr, hsr, hrlb] using this
            · cases c with
              | none =>
                  simp [fetchLoop, hr, hsr] at hmem
              | some key =>
                  by_cases hrlb : isRateLimitError e' = true
                  · simp [fetchLoop, hr, hsr, hrlb] at hmem
                    exact absurd (by rw [hmem]) hck
                  · simp [fetchLoop, hr, hsr, hrlb] at hmem
                    exact absurd (by rw [hmem]) hck

/-! ## Concrete inputs for counterexamples and witnesses -/

def lineVictoria : LineStatus := ⟨"victoria", "Victoria", "tube", [⟨10⟩]⟩

def lineRiver : LineStatus := ⟨"thames-clipper", "Thames Clippers", "river-bus", [⟨10⟩]⟩

def patternError : ThrownError := ⟨"The string did not match the expected pattern."⟩

/-- The error built for a 429 response carrying `Retry-After: 0`. -/
def rlZeroError : DispatchError :=
  buildError 429 (some "Too Many Requests") (some (.numeric 0)) 1000

def respRLZero : Option String → Except DispatchError Nat := fun _ => .error rlZeroError

def notFoundError : DispatchError := { message := "Not Found", status := some 404 }

def respNotFound : Option String → Except DispatchError Nat := fun _ => .error notFoundError

def respOk42 : Option String → Except DispatchError Nat := fun _ => .ok 42

/-- Upstream where the only succeeding mode variant returns an empty line
list. -/
def fStatusEmptySuccess : String → Except ThrownError (List LineStatus) := fun ep =>
  if ep = statusEndpointOf modeRiverbusAlias then .ok [] else .error patternError

/-- Upstream where a variant fails with a non-pattern error although the
next variant would succeed. -/
def fStatusEarlyBreak : String → Except ThrownError (List LineStatus) := fun ep =>
  if ep = statusEndpointOf "tube" then .ok [lineVictoria]
  else if ep = statusEndpointOf modeRiverbusAlias then .ok [lineRiver]
  else if ep = statusEndpointOf modeRiverBus then .error ⟨"connection reset"⟩
  else .error patternError

/-- Upstream for the spec scenario: the bulk call and the first variant
reject the mode string with the pattern error, the "riverbus" spelling
succeeds. -/
def fStatusScenario : String → Except ThrownError (List LineStatus) := fun ep =>
  if ep = statusEndpointOf modeRiverbusAlias then .ok [lineRiver] else .error patternError

def fetchBlankCex : String → Except ThrownError (List Nat) := fun id =>
  if id = "A" then .error ⟨"boom"⟩ else .ok []

def fetchABC : String → Except ThrownError (List Nat) := fun id =>
  if id = "A" then .ok [1] else if id = "B" then .error ⟨"boom"⟩ else .ok [3]

/-- A stale snapshot (150 s old at `now = 1000000`) with every refresh,
re-read and live fetch failing. -/
def envStaleAllFail : CacheEnv :=
  ⟨.ok (some ⟨[lineVictoria], 850000⟩), .error (), .error (), .error (), .ok ()⟩

/-- A fresh snapshot (90 s old at `now = 1000000`). -/
def envFreshHit : CacheEnv :=
  ⟨.ok (some ⟨[lineVictoria], 910000⟩), .error (), .error (), .error (), .ok ()⟩

/-! ## Claim theorems -/

/-- Claim C1: for every credential pool, cooldown table, cursor position and
current time, `getApiKeysInPriorityOrder` returns exactly the pool
credentials in round-robin order starting at the cursor with wrap-around,
excluding exactly those whose cooldown timestamp is still in the future
relative to now, followed by the no-credential sentinel; if the pool is
empty or every credential is cooling down, it returns only the sentinel. -/
theorem getApiKeysInPriorityOrder_round_robin :
    ∀ (s : ClientState) (now : Nat),
      getApiKeysInPriorityOrder s now = candidatesSpec s now ∧
      (s.apiKeys = [] → getApiKeysInPriorityOrder s now = [none]) ∧
      ((∀ k ∈ s.apiKeys, now < mapGetD s.rateLimitCooldowns k 0) →
        getApiKeysInPriorityOrder s now = [none]) := by
  intro s now
  refine ⟨keys_eq s now, fun he => ?_, fun hcool => ?_⟩
  · simp [getApiKeysInPriorityOrder, he]
  · rw [keys_eq s now]
    have hnil : (rotatedPool s).filter
        (fun k => !decide (now < mapGetD s.rateLimitCooldowns k 0)) = [] := by
      apply List.filter_eq_nil_iff.mpr
      intro k hk
      simp only [rotatedPool, List.mem_rotate] at hk
      simp [hcool k hk]
    simp [candidatesSpec, hnil]

/-- Claim C1 witness: with the only credential cooling down until 10 at
time 5, only the sentinel is returned. -/
theorem getApiKeysInPriorityOrder_round_robin_witness :
    getApiKeysInPriorityOrder ⟨["k1"], [("k1", 10)], 0⟩ 5 = [none] :=
  (getApiKeysInPriorityOrder_round_robin ⟨["k1"], [("k1", 10)], 0⟩ 5).2.2 (by decide)

/-- Claim C2 (amended): for every dispatch attempt of a call that fails
rate-limited while a concrete credential was in use (the credential is in
the call's attempt trace — first candidate or any later one reached by
failover — and its response is a rate-limit error), the executor records
that credential cooldown-until as `now + retryAfterMs` when a positive
`Retry-After` duration was extracted and as `now + 60000` otherwise (no
header, an unparseable header, or an extracted duration of zero); the
credential is then excluded from the candidate list of any call issued
before the recorded timestamp. -/
theorem fetchApi_rateLimit_cooldown {α : Type} (resp : Option String → Except DispatchError α)
    (s : ClientState) (now : Nat) (k : String) (e : DispatchError)
    (hnd : s.apiKeys.Nodup)
    (hmem : (some k) ∈ (fetchApi resp now s).2.2)
    (herr : resp (some k) = .error e)
    (hrl : isRateLimitError e = true) :
    mapLookup (fetchApi resp now s).2.1.rateLimitCooldowns k =
      some (now + cooldownMsOf e.retryAfterMs) ∧
    (∀ ra, e.retryAfterMs = some ra → 0 < ra → cooldownMsOf e.retryAfterMs = ra) ∧
    (e.retryAfterMs = none → cooldownMsOf e.retryAfterMs = 60000) ∧
    (e.retryAfterMs = some 0 → cooldownMsOf e.retryAfterMs = 60000) ∧
    (∀ now', now' < now + cooldownMsOf e.retryAfterMs →
      (some k) ∉ getApiKeysInPriorityOrder (fetchApi resp now s).2.1 now') := by
  have hmain : mapLookup (fetchApi resp now s).2.1.rateLimitCooldowns k =
      some (now + cooldownMsOf e.retryAfterMs) :=
    fetchLoop_mem_rl resp now (getApiKeysInPriorityOrder s now).length k e herr hrl
      (getApiKeysInPriorityOrder s now) 0 s none (candidates_nodup s now hnd) hmem
  refine ⟨hmain, ?_, ?_, ?_, ?_⟩
  · intro ra hra hpos
    simp [cooldownMsOf, hra, hpos]
  · intro hnone
    simp [cooldownMsOf, hnone]
  · intro hzero
    simp [cooldownMsOf, hzero]
  · intro now' hlt hmem'
    have hcd := mem_candidates_cooldown _ now' k hmem'
    rw [mapGetD, hmain] at hcd
    simp only [Option.getD_some] at hcd
    omega

/-- Claim C2 witness: a failover run over the pool ["k1", "k2"] in which
the SECOND credential "k2" is the rate-limited attempt being checked — it
gets the default cooldown and is excluded from later candidate lists until
it expires. -/
theorem fetchApi_rateLimit_cooldown_witness :
    mapLookup (fetchApi respRLZero 1000 ⟨["k1", "k2"], [], 0⟩).2.1.rateLimitCooldowns "k2" =
      some (1000 + cooldownMsOf rlZeroError.retryAfterMs) ∧
    (∀ ra, rlZeroError.retryAfterMs = some ra → 0 < ra →
      cooldownMsOf rlZeroError.retryAfterMs = ra) ∧
    (rlZeroError.retryAfterMs = none → cooldownMsOf rlZeroError.retryAfterMs = 60000) ∧
    (rlZeroError.retryAfterMs = some 0 → cooldownMsOf rlZeroError.retryAfterMs = 60000) ∧
    (∀ now', now' < 1000 + cooldownMsOf rlZeroError.retryAfterMs →
      (some "k2") ∉
        getApiKeysInPriorityOrder (fetchApi respRLZero 1000 ⟨["k1", "k2"], [], 0⟩).2.1 now') :=
  fetchApi_rateLimit_cooldown respRLZero ⟨["k1", "k2"], [], 0⟩ 1000 "k2" rlZeroError (by decide) (by decide) rfl rfl

/-- Claim C2 counterexample to the claim as stated: a `Retry-After`
duration of 0 ms IS extracted (`Retry-After: 0` parses to zero seconds),
yet the recorded cooldown is `now + 60000`, not `now + retryAfterMs`. -/
theorem fetchApi_retryAfter_zero_cex :
    rlZeroError.retryAfterMs = some 0 ∧
    mapLookup (fetchApi respRLZero 1000 ⟨["k1"], [], 0⟩).2.1.rateLimitCooldowns "k1" =
      some 61000 ∧
    (61000 : Nat) ≠ 1000 + 0 :=
  ⟨rfl, rfl, by decide⟩

/-- Claim C3: when the first attempted candidate fails with an error not
classified as rate-limit, the executor makes exactly one network attempt
(the trace is the singleton of that candidate), mutates nothing, and
propagates that error; in every run, continuation past an attempted
candidate happens only when its error is classified rate-limit and it is
not the last candidate (the trace is always an initial segment of the
candidate list). -/
theorem fetchApi_nonRateLimit_single_attempt :
    (∀ (α : Type) (resp : Option String → Except DispatchError α) (s : ClientState)
        (now : Nat) (c : Option String) (rest : List (Option String)) (e : DispatchError),
      getApiKeysInPriorityOrder s now = c :: rest →
      resp c = .error e →
      isRateLimitError e = false →
      fetchApi resp now s = (.errored e, s, [c])) ∧
    (∀ (α : Type) (resp : Option String → Except DispatchError α) (s : ClientState)
        (now i : Nat),
      i + 1 < (fetchApi resp now s).2.2.length →
      ∃ e, resp ((fetchApi resp now s).2.2.getD i none) = .error e ∧
        isRateLimitError e = true ∧ i < (getApiKeysInPriorityOrder s now).length - 1) ∧
    (∀ (α : Type) (resp : Option String → Except DispatchError α) (s : ClientState)
        (now : Nat),
      ∃ q, (fetchApi resp now s).2.2 ++ q = getApiKeysInPriorityOrder s now) := by
  refine ⟨?_, ?_, ?_⟩
  · intro α resp s now c rest e hhead herr hnot
    have hfa : fetchApi resp now s = fetchLoop resp now
        (getApiKeysInPriorityOrder s now).length (getApiKeysInPriorityOrder s now) 0 s none := rfl
    rw [hfa, hhead]
    cases c with
    | none => simp [fetchLoop, herr, shouldRetryWithNextKey, hnot]
    | some key => simp [fetchLoop, herr, shouldRetryWithNextKey, hnot]
  · intro α resp s now i h
    have hfa : fetchApi resp now s = fetchLoop resp now
        (getApiKeysInPriorityOrder s now).length (getApiKeysInPriorityOrder s now) 0 s none := rfl
    rw [hfa] at h ⊢
    obtain ⟨e, he1, he2⟩ := fetchLoop_trace_rl resp now
      (getApiKeysInPriorityOrder s now).length (getApiKeysInPriorityOrder s now) 0 s none i h
    refine ⟨e, he1, he2, ?_⟩
    obtain ⟨q, hq⟩ := fetchLoop_trace_take resp now
      (getApiKeysInPriorityOrder s now).length (getApiKeysInPriorityOrder s now) 0 s none
    have hlen := congrArg List.length hq
    rw [List.length_append] at hlen
    omega
  · intro α resp s now
    exact fetchLoop_trace_take resp now
      (getApiKeysInPriorityOrder s now).length (getApiKeysInPriorityOrder s now) 0 s none

/-- Claim C3 witness: a 404 on the first candidate is propagated after a
single attempt with no state change. -/
theorem fetchApi_nonRateLimit_single_attempt_witness :
    fetchApi respNotFound 5 ⟨["k1"], [], 0⟩ =
      (.errored notFoundError, ⟨["k1"], [], 0⟩, [some "k1"]) :=
  fetchApi_nonRateLimit_single_attempt.1 Nat respNotFound ⟨["k1"], [], 0⟩ 5 (some "k1")
    [none] notFoundError rfl rfl rfl

/-- Claim C4: for a pool of size N ≥ 1 with an in-range cursor, the cursor
is advanced by exactly one modulo N only on success with a real credential,
never on failure and never when the sentinel was used, so it stays in
[0, N); and when nothing is cooling down and the call succeeds on its first
candidate (the credential at the cursor), the next call's first candidate
is the credential at index (cursor + 1) mod N. -/
theorem fetchApi_cursor_rotation {α : Type} (resp : Option String → Except DispatchError α)
    (s : ClientState) (now : Nat)
    (hpool : 0 < s.apiKeys.length) (hidx : s.roundRobinIndex < s.apiKeys.length) :
    ((fetchApi resp now s).2.1.roundRobinIndex < s.apiKeys.length) ∧
    (∀ v k, (fetchApi resp now s).1 = .ok v (some k) →
      (fetchApi resp now s).2.1.roundRobinIndex = (s.roundRobinIndex + 1) % s.apiKeys.length) ∧
    (∀ v, (fetchApi resp now s).1 = .ok v none →
      (fetchApi resp now s).2.1.roundRobinIndex = s.roundRobinIndex) ∧
    (∀ e, (fetchApi resp now s).1 = .errored e →
      (fetchApi resp now s).2.1.roundRobinIndex = s.roundRobinIndex) ∧
    ((∀ x, mapGetD s.rateLimitCooldowns x 0 ≤ now) →
      ∀ v, resp (some (s.apiKeys.getD s.roundRobinIndex "")) = .ok v →
        fetchApi resp now s = (.ok v (some (s.apiKeys.getD s.roundRobinIndex "")), { s with roundRobinIndex := (s.roundRobinIndex + 1) % s.apiKeys.length }, [some (s.apiKeys.getD s.roundRobinIndex "")]) ∧
        (getApiKeysInPriorityOrder { s with roundRobinIndex := (s.roundRobinIndex + 1) % s.apiKeys.length } now).headD none = some (s.apiKeys.getD ((s.roundRobinIndex + 1) % s.apiKeys.length) "")) := by
  have hmax : max s.apiKeys.length 1 = s.apiKeys.length := Nat.max_eq_left hpool
  have hfa : fetchApi resp now s = fetchLoop resp now
      (getApiKeysInPriorityOrder s now).length (getApiKeysInPriorityOrder s now) 0 s none := rfl
  have hcur := fetchLoop_cursor resp now (getApiKeysInPriorityOrder s now).length
    (getApiKeysInPriorityOrder s now) 0 s none
  refine ⟨?_, ?_, ?_, ?_, ?_⟩
  · rw [hfa]
    rcases hcur.2 with ⟨heq, -⟩ | ⟨heq, -⟩
    · rw [heq]
      exact hidx
    · rw [heq, hmax]
      exact Nat.mod_lt _ hpool
  · intro v k hout
    rw [hfa] at hout ⊢
    rcases hcur.2 with ⟨-, hne⟩ | ⟨heq, -⟩
    · exact absurd hout (hne v k)
    · rw [heq, hmax]
  · intro v hout
    rw [hfa] at hout ⊢
    rcases hcur.2 with ⟨heq, -⟩ | ⟨-, ⟨v', k', hk'⟩⟩
    · exact heq
    · rw [hout] at hk'
      exact absurd hk' (by simp)
  · intro e hout
    rw [hfa] at hout ⊢
    rcases hcur.2 with ⟨heq, -⟩ | ⟨-, ⟨v', k', hk'⟩⟩
    · exact heq
    · rw [hout] at hk'
      exact absurd hk' (by simp)
  · intro hcool v hresp
    have hcands := candidates_nocooldown s now hpool hcool
    have hne : s.apiKeys.rotate s.roundRobinIndex ≠ [] := by
      intro hh
      have hlr := List.length_rotate s.apiKeys s.roundRobinIndex
      rw [hh] at hlr
      simp at hlr
      omega
    obtain ⟨a, t, hat⟩ := List.exists_cons_of_ne_nil hne
    have hhead : (getApiKeysInPriorityOrder s now).headD none =
        some (s.apiKeys.getD s.roundRobinIndex "") :=
      candidates_nocooldown_head s now hidx hcool
    rw [hcands, hat] at hhead
    simp only [List.map_cons, List.cons_append, List.headD_cons] at hhead
    have ha : a = s.apiKeys.getD s.roundRobinIndex "" := Option.some_inj.mp hhead
    subst ha
    have hfa2 : fetchApi resp now s = fetchLoop resp now
        (getApiKeysInPriorityOrder s now).length (getApiKeysInPriorityOrder s now) 0 s none := rfl
    constructor
    · rw [hfa2, hcands, hat]
      simp only [List.map_cons, List.cons_append]
      rw [List.getD_eq_getElem _ _ hidx] at hresp
      simp [fetchLoop, hresp, hmax, List.getD_eq_getElem _ _ hidx,
        List.getElem?_eq_getElem hidx]
    · have hidx' : (s.roundRobinIndex + 1) % s.apiKeys.length < s.apiKeys.length :=
        Nat.mod_lt _ hpool
      exact candidates_nocooldown_head
        { s with roundRobinIndex := (s.roundRobinIndex + 1) % s.apiKeys.length } now hidx' hcool

/-- Claim C4 witness: with two keys and cursor 0, the cursor stays in
range after a call. -/
theorem fetchApi_cursor_rotation_witness :
    (fetchApi respOk42 7 ⟨["k1", "k2"], [], 0⟩).2.1.roundRobinIndex < 2 :=
  (fetchApi_cursor_rotation respOk42 ⟨["k1", "k2"], [], 0⟩ 7 (by decide) (by decide)).1

/-- Claim C5: the rate-limit classification predicate returns true iff the
HTTP status is 429 or the message contains (case-insensitively) one of
"rate limit", "too many requests", "exceeded your quota", "quota exceeded",
"over rate limit". -/
theorem isRateLimitResponse_iff :
    ∀ (status : Option Nat) (message : Option String),
      isRateLimitResponse status message = true ↔
        (status = some 429 ∨
          ∃ p ∈ rateLimitPhrases, containsSub (lowerStr (message.getD "")) p = true) := by
  intro status message
  by_cases hs : status = some 429
  · simp [isRateLimitResponse, hs]
  · cases message with
    | none =>
        simp only [isRateLimitResponse, if_neg hs, Option.getD_none]
        simp [hs, rateLimitPhrases, phraseRateLimit, phraseTooMany, phraseExceededQuota,
          phraseQuotaExceeded, phraseOverRateLimit, lowerStr, containsSub]
    | some m =>
        by_cases hm : m = ""
        · subst hm
          simp only [isRateLimitResponse, if_neg hs, Option.getD_some]
          simp [hs, rateLimitPhrases, phraseRateLimit, phraseTooMany, phraseExceededQuota,
            phraseQuotaExceeded, phraseOverRateLimit, lowerStr, containsSub]
        · simp only [isRateLimitResponse, if_neg hs, if_neg hm, Option.getD_some]
          simp [hs, rateLimitPhrases, Bool.or_eq_true]
          tauto

/-- Claim C5 witness: a 503 whose message mentions being over the rate
limit is classified by the message alone. -/
theorem isRateLimitResponse_iff_witness :
    isRateLimitResponse (some 503) (some "Over Rate Limit") = true ↔
      (some 503 = some 429 ∨
        ∃ p ∈ rateLimitPhrases,
          containsSub (lowerStr ((some "Over Rate Limit").getD "")) p = true) :=
  isRateLimitResponse_iff (some 503) (some "Over Rate Limit")

/-- Claim C6 (amended): the status read path evaluates its strategies in
order — a snapshot 90 s old is returned directly as a cache hit without
invoking refresh, while one 150 s old (maxAge is 120 s) enters the refresh
path; every returned payload comes from the strategy its source tag names:
a cache hit returns the payload of the snapshot obtained by the first read
and that snapshot is fresh, a refreshed result returns the payload of the
post-refresh snapshot and that snapshot is fresh, and a live result is
exactly the live fetch's payload — so no payload staler than maxAge is
ever returned; the read errors only when the live fallback itself failed
(rather than returning a stale snapshot). -/
theorem statusRead_strategies :
    (∀ (env : CacheEnv) (now : Nat) (p : List LineStatus), 90000 ≤ now →
      env.read1 = .ok (some ⟨p, now - 90000⟩) →
      statusRead env now = (.payload p .cacheHit, false)) ∧
    (∀ (env : CacheEnv) (now : Nat) (p : List LineStatus), 150000 ≤ now →
      env.read1 = .ok (some ⟨p, now - 150000⟩) →
      (statusRead env now).2 = true) ∧
    (∀ (env : CacheEnv) (now : Nat) (p : List LineStatus) (src : CacheSource),
      (statusRead env now).1 = .payload p src →
      (src = .cacheHit ∧ ∃ snap, snapshotAfterRead1 env = some snap ∧
        isSnapshotFresh (some snap) maxSnapshotAgeMs now = true ∧ p = snap.payload) ∨
      (src = .refreshed ∧ ∃ snap, snapshotAfterRefresh env = some snap ∧
        isSnapshotFresh (some snap) maxSnapshotAgeMs now = true ∧ p = snap.payload) ∨
      (src = .liveFetch ∧ env.live = .ok p)) ∧
    (∀ (env : CacheEnv) (now : Nat),
      (statusRead env now).1 = .errored → env.live = .error ()) := by
  refine ⟨?_, ?_, ?_, ?_⟩
  · intro env now p hnow hr
    have hs : snapshotAfterRead1 env = some ⟨p, now - 90000⟩ := by
      simp [snapshotAfterRead1, hr]
    have hfresh : isSnapshotFresh (snapshotAfterRead1 env) maxSnapshotAgeMs now = true := by
      rw [hs]
      simp only [isSnapshotFresh, maxSnapshotAgeMs, decide_eq_true_eq]
      omega
    rw [statusRead, if_pos hfresh, hs]
    rfl
  · intro env now p hnow hr
    have hs : snapshotAfterRead1 env = some ⟨p, now - 150000⟩ := by
      simp [snapshotAfterRead1, hr]
    have hstale : isSnapshotFresh (snapshotAfterRead1 env) maxSnapshotAgeMs now = false := by
      rw [hs]
      simp only [isSnapshotFresh, maxSnapshotAgeMs, decide_eq_false_iff_not]
      omega
    rw [statusRead, if_neg (by simp [hstale])]
    by_cases h2 : isSnapshotFresh (snapshotAfterRefresh env) maxSnapshotAgeMs now = true
    · rw [if_pos h2]
    · rw [if_neg h2]
      cases env.live <;> rfl
  · intro env now p src h
    rw [statusRead] at h
    by_cases h1 : isSnapshotFresh (snapshotAfterRead1 env) maxSnapshotAgeMs now = true
    · rw [if_pos h1] at h
      cases hs : snapshotAfterRead1 env with
      | none => rw [hs] at h1; simp [isSnapshotFresh] at h1
      | some snap =>
          rw [hs] at h h1
          simp only [Option.getD_some] at h
          have hp := CacheOutcome.payload.inj h
          exact Or.inl ⟨hp.2.symm, snap, rfl, h1, hp.1.symm⟩
    · rw [if_neg h1] at h
      by_cases h2 : isSnapshotFresh (snapshotAfterRefresh env) maxSnapshotAgeMs now = true
      · rw [if_pos h2] at h
        cases hs : snapshotAfterRefresh env with
        | none => rw [hs] at h2; simp [isSnapshotFresh] at h2
        | some snap =>
            rw [hs] at h h2
            simp only [Option.getD_some] at h
            have hp := CacheOutcome.payload.inj h
            exact Or.inr (Or.inl ⟨hp.2.symm, snap, rfl, h2, hp.1.symm⟩)
      · rw [if_neg h2] at h
        cases hl : env.live with
        | ok lines =>
            rw [hl] at h
            have hm : CacheOutcome.payload lines CacheSource.liveFetch =
                CacheOutcome.payload p src := h
            have hp := CacheOutcome.payload.inj hm
            exact Or.inr (Or.inr ⟨hp.2.symm, by rw [hp.1]⟩)
        | error u =>
            rw [hl] at h
            have hm : CacheOutcome.errored = CacheOutcome.payload p src := h
            exact absurd hm (by simp)
  · intro env now h
    rw [statusRead] at h
    by_cases h1 : isSnapshotFresh (snapshotAfterRead1 env) maxSnapshotAgeMs now = true
    · rw [if_pos h1] at h
      exact absurd h (by simp)
    · rw [if_neg h1] at h
      by_cases h2 : isSnapshotFresh (snapshotAfterRefresh env) maxSnapshotAgeMs now = true
      · rw [if_pos h2] at h
        exact absurd h (by simp)
      · rw [if_neg h2] at h
        cases hl : env.live with
        | ok lines =>
            rw [hl] at h
            have hm : CacheOutcome.payload lines CacheSource.liveFetch =
                CacheOutcome.errored := h
            exact absurd hm (by simp)
        | error u => rfl

/-- Claim C6 witness: a snapshot 90 s old is served as a cache hit with
the refresh path not entered. -/
theorem statusRead_strategies_witness :
    statusRead envFreshHit 1000000 = (.payload [lineVictoria] .cacheHit, false) :=
  statusRead_strategies.1 envFreshHit 1000000 [lineVictoria] (by decide) rfl

/-- Claim C6 counterexample to the claim as stated: with a stale snapshot
on hand and refresh, re-read and live fetch all failing, the route throws
(500) instead of returning the most recent result obtainable (the stale
snapshot payload). -/
theorem statusRead_stale_errors_cex :
    envStaleAllFail.read1 = .ok (some ⟨[lineVictoria], 850000⟩) ∧
    maxSnapshotAgeMs < 1000000 - 850000 ∧
    statusRead envStaleAllFail 1000000 = (.errored, true) :=
  ⟨rfl, by decide, rfl⟩

/-- Claim C7 (amended): `buildModeVariants` produces the normalized mode
followed by its stripped/alias variants (river-bus → riverbus, cable-car →
cablecar); a non-pattern bulk failure propagates unchanged; on a
malformed-pattern bulk failure the fallback tries each mode's variants in
order, accepting the first success, continuing past a variant only on
another pattern error and aborting the mode's variant walk on any other
error; the aggregated results are returned when non-empty, otherwise the
original bulk error propagates; in particular `getLineStatus(["river-bus"])`
tries "river-bus" then "riverbus" and succeeds via the latter. -/
theorem getLineStatus_mode_fallback :
    (buildModeVariants modeRiverBus = [modeRiverBus, modeRiverbusAlias] ∧
     buildModeVariants modeCableCar = [modeCableCar, modeCablecarAlias]) ∧
    (∀ (f : String → Except ThrownError (List LineStatus)) (modes : Option (List String))
        (e : ThrownError),
      f (statusEndpointOf (joinComma (requestedModesOf modes))) = .error e →
      isPatternError e = false → getLineStatus f modes = .error e) ∧
    (∀ (f : String → Except ThrownError (List LineStatus)) (v : String) (rest : List String)
        (d : List LineStatus),
      f (statusEndpointOf v) = .ok d → tryVariants f (v :: rest) = some d) ∧
    (∀ (f : String → Except ThrownError (List LineStatus)) (v : String) (rest : List String)
        (e : ThrownError),
      f (statusEndpointOf v) = .error e → isPatternError e = true →
      tryVariants f (v :: rest) = tryVariants f rest) ∧
    (∀ (f : String → Except ThrownError (List LineStatus)) (v : String) (rest : List String)
        (e : ThrownError),
      f (statusEndpointOf v) = .error e → isPatternError e = false →
      tryVariants f (v :: rest) = none) ∧
    (∀ (f : String → Except ThrownError (List LineStatus)) (modes : Option (List String))
        (e : ThrownError),
      f (statusEndpointOf (joinComma (requestedModesOf modes))) = .error e →
      isPatternError e = true →
      getLineStatus f modes =
        (if 0 < (fallbackAggregate f (requestedModesOf modes)).1.length
         then .ok (fallbackAggregate f (requestedModesOf modes)).1 else .error e)) ∧
    (∀ (f : String → Except ThrownError (List LineStatus)) (d : List LineStatus)
        (e : ThrownError),
      f (statusEndpointOf modeRiverBus) = .error e → isPatternError e = true →
      f (statusEndpointOf modeRiverbusAlias) = .ok d → 0 < d.length →
      getLineStatus f (some [modeRiverBus]) = .ok d) := by
  refine ⟨⟨rfl, rfl⟩, ?_, ?_, ?_, ?_, ?_, ?_⟩
  · intro f modes e hbulk hpat
    simp [getLineStatus, hbulk, hpat]
  · intro f v rest d hok
    simp [tryVariants, hok]
  · intro f v rest e herr hpat
    simp [tryVariants, herr, hpat]
  · intro f v rest e herr hpat
    simp [tryVariants, herr, hpat]
  · intro f modes e hbulk hpat
    simp [getLineStatus, hbulk, hpat]
  · intro f d e hbulk hpat hok hd
    have hreq : requestedModesOf (some [modeRiverBus]) = [modeRiverBus] := rfl
    have hjoin : joinComma [modeRiverBus] = modeRiverBus := rfl
    have hvar : buildModeVariants modeRiverBus = [modeRiverBus, modeRiverbusAlias] := rfl
    have htv : tryVariants f (buildModeVariants modeRiverBus) = some d := by
      rw [hvar]
      simp only [tryVariants, hbulk, hpat, if_true, hok]
    have hagg : fallbackAggregate f [modeRiverBus] = (d, []) := by
      simp [fallbackAggregate, htv]
    simp only [getLineStatus, hreq, hjoin, hbulk, hpat, if_true, hagg]
    simp [hd]

/-- Claim C7 witness: the spec scenario — bulk and first variant fail with
the pattern error, the "riverbus" spelling succeeds, its lines are
returned and no error is raised. -/
theorem getLineStatus_mode_fallback_witness :
    getLineStatus fStatusScenario (some [modeRiverBus]) = .ok [lineRiver] :=
  getLineStatus_mode_fallback.2.2.2.2.2.2 fStatusScenario [lineRiver] patternError
    rfl rfl rfl (by decide)

/-- Claim C7 counterexample to the claim as stated (two parts): (1) when
the only succeeding variant returns an empty line list, the code throws the
original bulk error although a mode succeeded; (2) when a variant fails
with a non-pattern error, the code abandons the mode without trying the
next variant although that variant would succeed, so the aggregated result
misses that mode's lines.  `getLineStatusClaim` is the claim's wording. -/
theorem getLineStatus_mode_fallback_cex :
    (fStatusEmptySuccess (statusEndpointOf modeRiverbusAlias) = .ok [] ∧
     getLineStatus fStatusEmptySuccess (some [modeRiverBus]) = .error patternError ∧
     getLineStatusClaim fStatusEmptySuccess (some [modeRiverBus]) = .ok []) ∧
    (fStatusEarlyBreak (statusEndpointOf modeRiverbusAlias) = .ok [lineRiver] ∧
     getLineStatus fStatusEarlyBreak (some ["tube", modeRiverBus]) = .ok [lineVictoria] ∧
     getLineStatusClaim fStatusEarlyBreak (some ["tube", modeRiverBus]) =
       .ok [lineVictoria, lineRiver]) :=
  ⟨⟨rfl, rfl, rfl⟩, ⟨rfl, rfl, rfl⟩⟩

/-- Claim C8 (amended): `getMultipleArrivals` filters out blank ids, then
de-duplicates keeping first occurrences; it delegates to the single-stop
path when exactly one id remains (propagating its error), and for two or
more ids issues one request per id, mapping any per-id failure to zero
arrivals and flattening — never raising; for ["A","B","C"] with "B"
failing, the result is the concatenation of A's and C's results. -/
theorem getMultipleArrivals_batch_tolerance :
    (∀ (α : Type) (fetch : String → Except ThrownError (List α)) (ids : List String),
      uniqueIds ids = [] → getMultipleArrivals fetch ids = .ok []) ∧
    (∀ (α : Type) (fetch : String → Except ThrownError (List α)) (ids : List String)
        (x : String),
      uniqueIds ids = [x] → getMultipleArrivals fetch ids = fetch x) ∧
    (∀ (α : Type) (fetch : String → Except ThrownError (List α)) (ids : List String),
      2 ≤ (uniqueIds ids).length →
      getMultipleArrivals fetch ids =
        .ok (((uniqueIds ids).map (fun id =>
          match fetch id with
          | .ok arrivals => arrivals
          | .error _ => [])).flatten)) ∧
    (∀ (α : Type) (fetch : String → Except ThrownError (List α)) (a c : List α)
        (e : ThrownError),
      fetch "A" = .ok a → fetch "B" = .error e → fetch "C" = .ok c →
      getMultipleArrivals fetch ["A", "B", "C"] = .ok (a ++ c)) := by
  refine ⟨?_, ?_, ?_, ?_⟩
  · intro α fetch ids h
    simp [getMultipleArrivals, h]
  · intro α fetch ids x h
    simp [getMultipleArrivals, h]
  · intro α fetch ids h
    have h0 : ¬ (uniqueIds ids).length = 0 := by omega
    have h1 : ¬ (uniqueIds ids).length = 1 := by omega
    simp only [getMultipleArrivals, h0, h1, if_false, ite_false]
    rfl
  · intro α fetch a c e hA hB hC
    have hu : uniqueIds ["A", "B", "C"] = ["A", "B", "C"] := rfl
    simp [getMultipleArrivals, hu, hA, hB, hC]

/-- Claim C8 witness: the A/B/C scenario with the fetch for "B" failing
yields the concatenation of A's and C's results with no error. -/
theorem getMultipleArrivals_batch_tolerance_witness :
    getMultipleArrivals fetchABC ["A", "B", "C"] = .ok ([1] ++ [3]) :=
  getMultipleArrivals_batch_tolerance.2.2.2 Nat fetchABC [1] [3] ⟨"boom"⟩ rfl rfl rfl

/-- Claim C8 counterexample to the claim as stated: ["A", ""] holds two
distinct ids, so under the claim's reading (de-duplication only) the batch
path would swallow A's failure and return `ok []`; the code filters the
blank id out first, delegates to the single-stop path, and the error
reaches the caller.  `getMultipleArrivalsClaim` is the claim's wording. -/
theorem getMultipleArrivals_blank_id_cex :
    dedupFirst ["A", ""] = ["A", ""] ∧
    getMultipleArrivals fetchBlankCex ["A", ""] = .error ⟨"boom"⟩ ∧
    getMultipleArrivalsClaim fetchBlankCex ["A", ""] = .ok [] :=
  ⟨rfl, rfl, rfl⟩

/-- Claim C9: `isGoodService` returns true iff every entry of
`lineStatuses` has severity exactly 10, including the empty list (vacuously
true) and singleton lists. -/
theorem isGoodService_iff :
    (∀ line : LineStatus, isGoodService line = true ↔
      ∀ st ∈ line.lineStatuses, st.statusSeverity = 10) ∧
    (∀ i n m, isGoodService ⟨i, n, m, []⟩ = true) ∧
    (∀ i n m e, isGoodService ⟨i, n, m, [e]⟩ = true ↔ e.statusSeverity = 10) := by
  refine ⟨fun line => ?_, fun i n m => ?_, fun i n m e => ?_⟩ <;>
    simp [isGoodService, List.all_eq_true]

/-- Claim C9 witness: a line with the singleton good-service status list. -/
theorem isGoodService_iff_witness :
    isGoodService ⟨"victoria", "Victoria", "tube", [⟨10⟩]⟩ = true ↔
      ∀ st ∈ [(⟨10⟩ : StatusEntry)], st.statusSeverity = 10 :=
  isGoodService_iff.1 ⟨"victoria", "Victoria", "tube", [⟨10⟩]⟩

/-- Claim C10: the candidate list is never empty (it always ends with the
sentinel), so `fetchApi` either returns a parsed body or rethrows the error
of one of its attempts; the trailing generic-failure branch after the
candidate loop is unreachable. -/
theorem fetchApi_candidates_total :
    ∀ (α : Type) (resp : Option String → Except DispatchError α) (now : Nat) (s : ClientState),
      getApiKeysInPriorityOrder s now ≠ [] ∧
      ((∃ v k, k ∈ getApiKeysInPriorityOrder s now ∧ resp k = .ok v ∧
          (fetchApi resp now s).1 = .ok v k) ∨
       (∃ k e, k ∈ getApiKeysInPriorityOrder s now ∧ resp k = .error e ∧
          (fetchApi resp now s).1 = .errored e)) ∧
      (fetchApi resp now s).1 ≠ .genericFailure := by
  intro α resp now s
  have htot := fetchLoop_total resp now (getApiKeysInPriorityOrder s now).length
    (getApiKeysInPriorityOrder s now) 0 s none (candidates_ne_nil s now)
  have hfa : fetchApi resp now s = fetchLoop resp now
      (getApiKeysInPriorityOrder s now).length (getApiKeysInPriorityOrder s now) 0 s none := rfl
  refine ⟨candidates_ne_nil s now, ?_, ?_⟩
  · rw [hfa]
    exact htot
  · rw [hfa]
    rcases htot with ⟨v, k, -, -, hout⟩ | ⟨k, e, -, -, hout⟩ <;> simp [hout]

/-- Claim C10 witness: even with an empty pool the candidate list is the
non-empty sentinel singleton. -/
theorem fetchApi_candidates_total_witness :
    getApiKeysInPriorityOrder ⟨[], [], 0⟩ 0 ≠ [] :=
  (fetchApi_candidates_total Nat (fun _ => .ok 0) 0 ⟨[], [], 0⟩).1

end TFL
